import Mathlib

/-!
Verification of the UHRP storage-commitment validator (TopicManager).

The development shallowly embeds the TypeScript source: byte buffers are
lists of naturals, JavaScript strings appear as lists of character codes,
numbers that may be NaN appear as `Option Int`, and the thrown / caught
exception discipline of `evaluateCommitment` appears as `Except String`.
The external collaborators (SHA-256, DER signature parsing, elliptic-curve
verification, and the URL predicate imported from a module outside the
repository) are parameters gathered in the `Collaborators` structure, as
the design document treats them: opaque primitives consumed by the core.
-/

/-- The fixed UHRP protocol tag, from the source constant. -/
def uhrpProtocolAddress : String := "1UHRPYnMHPuQ5Tgb3AF8JXqwKkmZVy5hG"

/-- The protocol tag as its byte sequence. The tag is pure ASCII, and Node
decodes a byte buffer to this exact string under utf8 precisely when the
buffer holds these bytes, so the source comparison
`fields[0].toString(utf8) !== tag` is embedded as a byte-list equality. -/
def uhrpProtocolAddressBytes : List Nat := uhrpProtocolAddress.toList.map Char.toNat

/-- External collaborators of the core (design document section 6): the
hashing primitive, DER signature decoding (returning `none` where the
library throws on malformed DER), elliptic-curve verification, and the
URL-validity predicate (taken over the field bytes, since it is applied
to the utf8 decoding of field 4 and nothing else). -/
structure Collaborators (PubKey Sig : Type) where
  sha256 : List Nat → List Nat
  fromDER : List Nat → Option Sig
  verify : PubKey → List Nat → Sig → Bool
  isValidURL : List Nat → Bool

/-- Fuel-driven translation of the decode loop of
`TopicManager.decodeOutputScript`: read one length byte, slice that many
bytes off the remainder (`List.take` clips exactly as `Buffer.slice`
does), push the field, and continue after the slice. The fuel only makes
the recursion structural; `decodeOutputScript` supplies enough of it. -/
def decodeAux : Nat → List Nat → List (List Nat)
  | _, [] => []
  | 0, _ :: _ => []
  | fuel + 1, len :: rest => rest.take len :: decodeAux fuel (rest.drop len)

/-- `TopicManager.decodeOutputScript`: split a raw script into its
length-prefixed fields. -/
def decodeOutputScript (outputScript : List Nat) : List (List Nat) :=
  decodeAux outputScript.length outputScript

/-- Indexing `fields[i]` followed by a method call, as the source performs
on the decoded fields: in bounds it yields the field, out of bounds the
JavaScript TypeError raised on `undefined`, caught by the outer catch. -/
def getField (fields : List (List Nat)) (i : Nat) : Except String (List Nat) :=
  if h : i < fields.length then Except.ok (fields.get ⟨i, h⟩)
  else Except.error msgTypeError
where msgTypeError : String := "TypeError: cannot read properties of undefined"

/-- One byte rendered as two lowercase hex character codes, as
`Buffer.toString(hex)` renders it. -/
def byteToHex (b : Nat) : List Nat :=
  [hexDigitCode (b / 16), hexDigitCode (b % 16)]
where hexDigitCode (n : Nat) : Nat := if n < 10 then 48 + n else 87 + n

/-- `buffer.toString(hex)`: the lowercase hex rendering of a buffer, as a
list of character codes. -/
def bufToHex (l : List Nat) : List Nat := (l.map byteToHex).flatten

/-- `TopicManager.isValidSHA256`: the test of the regular expression
matching exactly 64 lowercase hex characters, over character codes. -/
def isValidSHA256 (hash : List Nat) : Bool :=
  hash.length == 64 &&
    hash.all (fun c => (48 ≤ c && c ≤ 57) || (97 ≤ c && c ≤ 102))

/-- ASCII whitespace skipped by `parseInt` before reading digits. -/
def isWsByte (b : Nat) : Bool :=
  b == 9 || b == 10 || b == 11 || b == 12 || b == 13 || b == 32

/-- A decimal digit character code. -/
def isDigitByte (b : Nat) : Bool := 48 ≤ b && b ≤ 57

/-- Value of a run of decimal digit codes. -/
def digitsToNat (ds : List Nat) : Nat :=
  ds.foldl (fun acc d => acc * 10 + (d - 48)) 0

/-- The greedy unsigned part of `parseInt`: the value of the leading digit
run, or `none` (NaN) when there is no leading digit. Trailing non-digit
characters are ignored, exactly as `parseInt` ignores them. -/
def parseUnsigned (l : List Nat) : Option Int :=
  let ds := l.takeWhile isDigitByte
  if ds.isEmpty then none else some (digitsToNat ds : Nat)

/-- `parseInt(s, 10)` over the bytes of the field: skip leading
whitespace, read an optional sign, then the leading decimal digit run;
`none` stands for NaN. -/
def parseIntBytes (l : List Nat) : Option Int :=
  match l.dropWhile isWsByte with
  | 43 :: rest => parseUnsigned rest
  | 45 :: rest => (parseUnsigned rest).map (fun n => -n)
  | rest => parseUnsigned rest

/-- The JavaScript comparison `x <= y` where `x` may be NaN (`none`): any
comparison against NaN is false, so the guards
`expiryTime <= currentTime` and `fileSize <= 0` never fire on NaN. -/
def jsLe (x : Option Int) (y : Int) : Bool :=
  match x with
  | none => false
  | some v => decide (v ≤ y)

def msgInvalidProtocol : String := "Invalid UHRP protocol address."
def msgInvalidHash : String := "Invalid SHA256 hash."
def msgInvalidURL : String := "Invalid URL."
def msgExpired : String := "Invalid or expired timestamp."
def msgInvalidFileSize : String := "Invalid file size."
def msgMalformedDER : String := "Signature DER decoding failed."
def msgInvalidSignature : String := "Invalid signature."

/-- The try-block of `TopicManager.evaluateCommitment` over the decoded
fields. Each field access that calls a method on `fields[i]` is a
`getField`; the logging lines touch fields 0, 1, 4, 5 and 6 with
`toString` before any check runs, fields 2 and 7 are logged without a
method call and so cannot raise there. The validation checks then run in
source order, throwing on failure; the signature step concatenates the
first seven field contents, hashes them, parses field 7 as DER (the
library throws on malformed DER) and verifies. -/
def evaluateBody (C : Collaborators PubKey Sig) (pubKey : PubKey) (now : Int)
    (fields : List (List Nat)) : Except String Bool :=
  match getField fields 0 with
  | Except.error e => Except.error e
  | Except.ok _ =>
  match getField fields 1 with
  | Except.error e => Except.error e
  | Except.ok _ =>
  match getField fields 4 with
  | Except.error e => Except.error e
  | Except.ok _ =>
  match getField fields 5 with
  | Except.error e => Except.error e
  | Except.ok _ =>
  match getField fields 6 with
  | Except.error e => Except.error e
  | Except.ok _ =>
  match getField fields 0 with
  | Except.error e => Except.error e
  | Except.ok f0 =>
  if f0 ≠ uhrpProtocolAddressBytes then Except.error msgInvalidProtocol else
  match getField fields 2 with
  | Except.error e => Except.error e
  | Except.ok f2 =>
  if ¬ isValidSHA256 (bufToHex f2) then Except.error msgInvalidHash else
  match getField fields 4 with
  | Except.error e => Except.error e
  | Except.ok f4 =>
  if ¬ C.isValidURL f4 then Except.error msgInvalidURL else
  match getField fields 5 with
  | Except.error e => Except.error e
  | Except.ok f5 =>
  if jsLe (parseIntBytes f5) now then Except.error msgExpired else
  match getField fields 6 with
  | Except.error e => Except.error e
  | Except.ok f6 =>
  if jsLe (parseIntBytes f6) 0 then Except.error msgInvalidFileSize else
  match getField fields 7 with
  | Except.error e => Except.error e
  | Except.ok sigBuf =>
  match C.fromDER sigBuf with
  | none => Except.error msgMalformedDER
  | some s =>
  if ¬ C.verify pubKey (C.sha256 (List.flatten (fields.take 7))) s then
    Except.error msgInvalidSignature
  else Except.ok true

/-- `TopicManager.evaluateCommitment`: decode the script, run the
try-block, and let the outer catch turn any thrown error into `false`.
The wall-clock read `Math.floor(Date.now() / 1000)` is the injected
parameter `now`. -/
def evaluateCommitment (C : Collaborators PubKey Sig) (outputScript : List Nat)
    (pubKey : PubKey) (now : Int) : Bool :=
  match evaluateBody C pubKey now (decodeOutputScript outputScript) with
  | Except.ok b => b
  | Except.error _ => false

/-- The encoding helper `createOutputScript` of the test suite: each field
is emitted as one length byte followed by its content, concatenated in
order. -/
def encodeFields (fields : List (List Nat)) : List Nat :=
  (fields.map (fun f => f.length :: f)).flatten

/-- Follows the specification section 4.3 as the refinement comparison
point: concatenate the raw contents of the seven message fields in order
with no separators and no length prefixes, digest with SHA-256, parse the
signature bytes as DER where a malformed encoding is a verification
failure and not a crash, and check the digest against the signature with
the supplied public key. -/
def verifySpec (C : Collaborators PubKey Sig) (pubKey : PubKey)
    (messageFields : List (List Nat)) (signatureBytes : List Nat) : Bool :=
  match C.fromDER signatureBytes with
  | none => false
  | some s => C.verify pubKey (C.sha256 (List.flatten messageFields)) s

/-- Collaborators instance used to exercise the control flow on concrete
inputs: hashing is the identity, every signature buffer parses as DER and
verifies, and every URL is accepted. -/
def trivialCollab : Collaborators Unit Unit where
  sha256 := fun l => l
  fromDER := fun _ => some ()
  verify := fun _ _ _ => true
  isValidURL := fun _ => true

/-- Spending enough fuel, `decodeAux` computes `decodeOutputScript`. -/
theorem decodeAux_eq (fuel : Nat) :
    ∀ buf : List Nat, buf.length ≤ fuel →
      decodeAux fuel buf = decodeOutputScript buf := by
  induction fuel using Nat.strong_induction_on with
  | _ fuel ih =>
    intro buf h
    cases buf with
    | nil => cases fuel <;> rfl
    | cons len rest =>
      cases fuel with
      | zero => simp at h
      | succ k =>
        have hr : rest.length ≤ k := by simpa using h
        have hd : (rest.drop len).length ≤ rest.length := by
          simp [List.length_drop]
        simp only [decodeOutputScript, List.length_cons, decodeAux]
        congr 1
        rw [ih k (Nat.lt_succ_self k) (rest.drop len) (le_trans hd hr),
          ih rest.length (Nat.lt_succ_of_le hr) (rest.drop len) hd]

/-- The defining step of the decode loop: one length byte, a clipped
slice, and the recursive call past the slice. -/
theorem decodeOutputScript_cons (len : Nat) (rest : List Nat) :
    decodeOutputScript (len :: rest) =
      rest.take len :: decodeOutputScript (rest.drop len) := by
  have hd : (rest.drop len).length ≤ rest.length := by simp [List.length_drop]
  simp only [decodeOutputScript, List.length_cons, decodeAux]
  congr 1
  exact decodeAux_eq rest.length (rest.drop len) hd

theorem decodeOutputScript_nil : decodeOutputScript [] = [] := rfl

/-- Decoding a buffer made of well-formed encoded fields followed by any
tail yields those fields followed by the decoding of the tail. -/
theorem decodeOutputScript_encode_append (pre : List (List Nat)) (tail : List Nat) :
    decodeOutputScript (encodeFields pre ++ tail) =
      pre ++ decodeOutputScript tail := by
  induction pre with
  | nil => simp [encodeFields]
  | cons f pre ih =>
    have hstep : encodeFields (f :: pre) ++ tail =
        f.length :: (f ++ (encodeFields pre ++ tail)) := by
      simp [encodeFields]
    rw [hstep, decodeOutputScript_cons, List.take_left, List.drop_left, ih]
    simp

/-- An in-bounds field access succeeds with the field. -/
theorem getField_eq_ok {fields : List (List Nat)} {i : Nat} (h : i < fields.length) :
    getField fields i = Except.ok (fields.getD i []) := by
  simp [getField, h, List.getD_eq_getElem]

/-- A successful field access implies the index was in bounds. -/
theorem getField_ok_lt {fields : List (List Nat)} {i : Nat} {f : List Nat}
    (h : getField fields i = Except.ok f) : i < fields.length := by
  by_contra hn
  simp [getField, hn] at h

/-- With all eight fields present, the try-block reduces to the chain of
validation checks in source order. -/
theorem evaluateBody_of_length {PubKey Sig : Type} (C : Collaborators PubKey Sig)
    (pubKey : PubKey) (now : Int) (fields : List (List Nat))
    (h8 : 8 ≤ fields.length) :
    evaluateBody C pubKey now fields =
      (if fields.getD 0 [] ≠ uhrpProtocolAddressBytes then
        Except.error msgInvalidProtocol
       else if ¬ isValidSHA256 (bufToHex (fields.getD 2 [])) then
        Except.error msgInvalidHash
       else if ¬ C.isValidURL (fields.getD 4 []) then
        Except.error msgInvalidURL
       else if jsLe (parseIntBytes (fields.getD 5 [])) now then
        Except.error msgExpired
       else if jsLe (parseIntBytes (fields.getD 6 [])) 0 then
        Except.error msgInvalidFileSize
       else
        (C.fromDER (fields.getD 7 [])).elim (Except.error msgMalformedDER)
          (fun s =>
            if ¬ C.verify pubKey (C.sha256 ((fields.take 7).flatten)) s then
              Except.error msgInvalidSignature
            else Except.ok true)) := by
  unfold evaluateBody
  rw [getField_eq_ok (show 0 < fields.length by omega),
    getField_eq_ok (show 1 < fields.length by omega),
    getField_eq_ok (show 4 < fields.length by omega),
    getField_eq_ok (show 5 < fields.length by omega),
    getField_eq_ok (show 6 < fields.length by omega),
    getField_eq_ok (show 2 < fields.length by omega),
    getField_eq_ok (show 7 < fields.length by omega)]
  rcases hder : C.fromDER (fields.getD 7 []) with _ | s <;>
    rw [List.getD_eq_getElem?_getD] at hder <;> simp [hder]

/-- A successful try-block run implies all eight fields were present. -/
theorem evaluateBody_ok_length {PubKey Sig : Type} {C : Collaborators PubKey Sig}
    {pubKey : PubKey} {now : Int} {fields : List (List Nat)} {b : Bool}
    (h : evaluateBody C pubKey now fields = Except.ok b) : 8 ≤ fields.length := by
  unfold evaluateBody at h
  repeat' split at h
  all_goals try exact Except.noConfusion h
  all_goals
    rename_i hget7 x hs hder hver
    exact Nat.succ_le_of_lt (getField_ok_lt hget7)

/-- The try-block returns `Except.ok true` exactly when every check of the
source passes; it never returns `Except.ok false`. -/
theorem evaluateBody_eq_ok_true_iff (C : Collaborators PubKey Sig)
    (pubKey : PubKey) (now : Int) (fields : List (List Nat)) :
    evaluateBody C pubKey now fields = Except.ok true ↔
      (8 ≤ fields.length ∧
       fields.getD 0 [] = uhrpProtocolAddressBytes ∧
       isValidSHA256 (bufToHex (fields.getD 2 [])) = true ∧
       C.isValidURL (fields.getD 4 []) = true ∧
       jsLe (parseIntBytes (fields.getD 5 [])) now = false ∧
       jsLe (parseIntBytes (fields.getD 6 [])) 0 = false ∧
       ∃ s, C.fromDER (fields.getD 7 []) = some s ∧
         C.verify pubKey (C.sha256 ((fields.take 7).flatten)) s = true) := by
  constructor
  · intro h
    have h8 : 8 ≤ fields.length := evaluateBody_ok_length h
    rw [evaluateBody_of_length C pubKey now fields h8] at h
    by_cases h0 : fields.getD 0 [] = uhrpProtocolAddressBytes
    swap
    · rw [if_pos h0] at h; exact Except.noConfusion h
    rw [if_neg (not_not_intro h0)] at h
    by_cases h2 : isValidSHA256 (bufToHex (fields.getD 2 [])) = true
    swap
    · rw [if_pos h2] at h; exact Except.noConfusion h
    rw [if_neg (not_not_intro h2)] at h
    by_cases h4 : C.isValidURL (fields.getD 4 []) = true
    swap
    · rw [if_pos h4] at h; exact Except.noConfusion h
    rw [if_neg (not_not_intro h4)] at h
    by_cases h5 : jsLe (parseIntBytes (fields.getD 5 [])) now = true
    · rw [if_pos h5] at h; exact Except.noConfusion h
    rw [if_neg h5] at h
    by_cases h6 : jsLe (parseIntBytes (fields.getD 6 [])) 0 = true
    · rw [if_pos h6] at h; exact Except.noConfusion h
    rw [if_neg h6] at h
    rcases hder : C.fromDER (fields.getD 7 []) with _ | s <;> rw [hder] at h
    · exact Except.noConfusion h
    simp only [Option.elim_some] at h
    by_cases hver : C.verify pubKey (C.sha256 ((fields.take 7).flatten)) s = true
    swap
    · rw [if_pos hver] at h; exact Except.noConfusion h
    refine ⟨h8, h0, h2, h4, by simpa using h5, by simpa using h6, s, ?_, hver⟩
    simpa using hder
  · rintro ⟨h8, h0, h2, h4, h5, h6, s, hder, hver⟩
    rw [evaluateBody_of_length C pubKey now fields h8,
      if_neg (not_not_intro h0), if_neg (not_not_intro h2),
      if_neg (not_not_intro h4),
      if_neg (by simp only [h5]; exact Bool.false_ne_true),
      if_neg (by simp only [h6]; exact Bool.false_ne_true), hder]
    simp [hver]

/-- The overall verdict is `true` exactly when every check of the source
passes on the decoded fields. -/
theorem evaluateCommitment_eq_true_iff (C : Collaborators PubKey Sig)
    (outputScript : List Nat) (pubKey : PubKey) (now : Int) :
    evaluateCommitment C outputScript pubKey now = true ↔
      (8 ≤ (decodeOutputScript outputScript).length ∧
       (decodeOutputScript outputScript).getD 0 [] = uhrpProtocolAddressBytes ∧
       isValidSHA256 (bufToHex ((decodeOutputScript outputScript).getD 2 [])) = true ∧
       C.isValidURL ((decodeOutputScript outputScript).getD 4 []) = true ∧
       jsLe (parseIntBytes ((decodeOutputScript outputScript).getD 5 [])) now = false ∧
       jsLe (parseIntBytes ((decodeOutputScript outputScript).getD 6 [])) 0 = false ∧
       ∃ s, C.fromDER ((decodeOutputScript outputScript).getD 7 []) = some s ∧
         C.verify pubKey
           (C.sha256 (((decodeOutputScript outputScript).take 7).flatten)) s = true) := by
  rw [← evaluateBody_eq_ok_true_iff C pubKey now (decodeOutputScript outputScript)]
  unfold evaluateCommitment
  rcases hE : evaluateBody C pubKey now (decodeOutputScript outputScript) with e | b
  · simp
  · cases b <;> simp

/-- A concrete well-formed commitment token: protocol tag, a host byte, a
32-byte hash, an action byte, a URL byte, expiry text "9", size text "1",
and a signature byte, each length-prefixed. -/
def validTokFields : List (List Nat) :=
  [uhrpProtocolAddressBytes, [107], List.replicate 32 0, [97], [117],
   [57], [49], [48]]

def validTok : List Nat := encodeFields validTokFields

/-- Claim C1: a commitment whose buffer decodes to at least eight fields,
whose field 0 equals the protocol tag byte-exactly, whose field 2 read as
hex matches the 64-lowercase-hex pattern, whose field 4 passes the URL
predicate, whose field 5 parses to an integer strictly above the current
time, whose field 6 parses to a strictly positive integer, and whose
field 7 is a DER signature that the supplied public key verifies against
the SHA-256 digest of the concatenated first seven field contents, makes
evaluateCommitment return true. -/
theorem evaluateCommitment_valid_commitment_true {PubKey Sig : Type}
    (C : Collaborators PubKey Sig) (outputScript : List Nat)
    (pubKey : PubKey) (now : Int)
    (h8 : 8 ≤ (decodeOutputScript outputScript).length)
    (h0 : (decodeOutputScript outputScript).getD 0 [] = uhrpProtocolAddressBytes)
    (h2 : isValidSHA256 (bufToHex ((decodeOutputScript outputScript).getD 2 [])) = true)
    (h4 : C.isValidURL ((decodeOutputScript outputScript).getD 4 []) = true)
    (h5 : ∃ e, parseIntBytes ((decodeOutputScript outputScript).getD 5 []) = some e ∧ now < e)
    (h6 : ∃ n, parseIntBytes ((decodeOutputScript outputScript).getD 6 []) = some n ∧ 0 < n)
    (h7 : ∃ s, C.fromDER ((decodeOutputScript outputScript).getD 7 []) = some s ∧
      C.verify pubKey
        (C.sha256 (((decodeOutputScript outputScript).take 7).flatten)) s = true) :
    evaluateCommitment C outputScript pubKey now = true := by
  rcases h5 with ⟨e, he, hlt⟩
  rcases h6 with ⟨n, hn, hpos⟩
  rw [evaluateCommitment_eq_true_iff]
  refine ⟨h8, h0, h2, h4, ?_, ?_, h7⟩
  · simp only [he, jsLe, decide_eq_false_iff_not]
    omega
  · simp only [hn, jsLe, decide_eq_false_iff_not]
    omega

/-- Witness for C1 on a concrete valid token with the trivial
collaborators and current time 0. -/
theorem evaluateCommitment_valid_commitment_true_witness :
    evaluateCommitment trivialCollab validTok () 0 = true :=
  evaluateCommitment_valid_commitment_true trivialCollab validTok () 0
    (by decide) (by decide) (by decide) (by decide)
    ⟨9, by decide, by decide⟩ ⟨1, by decide, by decide⟩
    ⟨(), by decide, by decide⟩

/-- Seven well-formed fields followed by an overrunning length prefix. -/
def overrunPrefixFields : List (List Nat) :=
  [uhrpProtocolAddressBytes, [107], List.replicate 32 0, [97], [117],
   [57], [49]]

/-- A commitment token whose signature field announces 200 bytes while
only 3 remain. -/
def overrunTok : List Nat := encodeFields overrunPrefixFields ++ 200 :: [1, 2, 3]

/-- Claim C2 counterexample: a length prefix claiming more bytes than
remain does NOT make the decode step fail. The buffer [5, 1, 2], whose
prefix 5 claims five bytes with two remaining, decodes without error to
the silently clipped field [1, 2]; and a full commitment whose signature
field prefix overruns still evaluates to true under collaborators that
accept the clipped signature, so evaluateCommitment does not return false
for every such buffer either. -/
theorem decode_overrun_counterexample :
    decodeOutputScript [5, 1, 2] = [[1, 2]] ∧
    evaluateCommitment trivialCollab overrunTok () 0 = true := by decide

/-- Claim C2 amended: an overrunning length prefix is not rejected; the
decode loop clips the announced field to the bytes that remain
(`Buffer.slice` semantics) and terminates, so a buffer of well-encoded
fields followed by an overrunning prefix decodes to those fields plus the
clipped remainder, and evaluateCommitment then judges the clipped
fields. -/
theorem decode_overrun_clips (pre : List (List Nat))
    (hsz : ∀ f ∈ pre, f.length ≤ 255) (len : Nat) (hlen : len ≤ 255)
    (rest : List Nat) (hover : rest.length < len) :
    decodeOutputScript (encodeFields pre ++ len :: rest) = pre ++ [rest] := by
  rw [decodeOutputScript_encode_append, decodeOutputScript_cons,
    List.take_of_length_le (le_of_lt hover),
    List.drop_eq_nil_of_le (le_of_lt hover)]
  rfl

/-- Witness for the amended C2 on the concrete overrunning token. -/
theorem decode_overrun_clips_witness :
    decodeOutputScript overrunTok = overrunPrefixFields ++ [[1, 2, 3]] :=
  decode_overrun_clips overrunPrefixFields (by decide) 200 (by decide)
    [1, 2, 3] (by decide)

/-- A commitment whose expiry field reads "no": not a number. -/
def nonNumericExpiryTok : List Nat :=
  encodeFields [uhrpProtocolAddressBytes, [107], List.replicate 32 0,
    [97], [117], [110, 111], [49], [48]]

/-- A commitment whose file size field reads "no": not a number. -/
def nonNumericSizeTok : List Nat :=
  encodeFields [uhrpProtocolAddressBytes, [107], List.replicate 32 0,
    [97], [117], [57], [110, 111], [48]]

/-- Claim C3 (code bug): a non-numeric expiry or file size field does NOT
make evaluateCommitment return false. parseInt yields NaN on such a
field, and both guards compare with <=, which is always false against
NaN, so neither check fires and a token whose signature verifies is
accepted. The two tokens below, differing from a fully valid commitment
only in a non-numeric field 5 respectively field 6, both evaluate to
true. -/
theorem evaluateCommitment_nonnumeric_accepted :
    parseIntBytes [110, 111] = none ∧
    evaluateCommitment trivialCollab nonNumericExpiryTok () 0 = true ∧
    evaluateCommitment trivialCollab nonNumericSizeTok () 0 = true := by decide

/-- The spec-side signature check succeeds exactly when DER parsing
succeeds and the parsed signature verifies against the digest of the
concatenated message fields. -/
theorem verifySpec_eq_true_iff {PubKey Sig : Type} (C : Collaborators PubKey Sig)
    (pubKey : PubKey) (messageFields : List (List Nat)) (signatureBytes : List Nat) :
    verifySpec C pubKey messageFields signatureBytes = true ↔
      ∃ s, C.fromDER signatureBytes = some s ∧
        C.verify pubKey (C.sha256 messageFields.flatten) s = true := by
  rcases hder : C.fromDER signatureBytes with _ | s <;> simp [verifySpec, hder]

/-- Claim C4: once the six preceding checks pass, the verdict of
evaluateCommitment is exactly the outcome of the canonical signature
check of the specification: the message is the byte-for-byte
concatenation of the contents of the first seven decoded fields in order,
with no separators and no length prefixes and without the signature
field; it is digested with SHA-256; field 7 is parsed as DER, a malformed
encoding counting as failure and not a crash; and the digest is checked
against that signature with the supplied public key. -/
theorem evaluateCommitment_signature_refines_spec {PubKey Sig : Type}
    (C : Collaborators PubKey Sig) (outputScript : List Nat)
    (pubKey : PubKey) (now : Int)
    (h8 : 8 ≤ (decodeOutputScript outputScript).length)
    (h0 : (decodeOutputScript outputScript).getD 0 [] = uhrpProtocolAddressBytes)
    (h2 : isValidSHA256 (bufToHex ((decodeOutputScript outputScript).getD 2 [])) = true)
    (h4 : C.isValidURL ((decodeOutputScript outputScript).getD 4 []) = true)
    (h5 : jsLe (parseIntBytes ((decodeOutputScript outputScript).getD 5 [])) now = false)
    (h6 : jsLe (parseIntBytes ((decodeOutputScript outputScript).getD 6 [])) 0 = false) :
    evaluateCommitment C outputScript pubKey now =
      verifySpec C pubKey ((decodeOutputScript outputScript).take 7)
        ((decodeOutputScript outputScript).getD 7 []) := by
  cases hV : verifySpec C pubKey ((decodeOutputScript outputScript).take 7)
      ((decodeOutputScript outputScript).getD 7 []) with
  | true =>
    exact (evaluateCommitment_eq_true_iff C outputScript pubKey now).mpr
      ⟨h8, h0, h2, h4, h5, h6,
        (verifySpec_eq_true_iff C pubKey _ _).mp hV⟩
  | false =>
    by_contra hne
    have hT : evaluateCommitment C outputScript pubKey now = true := by
      revert hne
      cases evaluateCommitment C outputScript pubKey now <;> simp
    have hsig :=
      ((evaluateCommitment_eq_true_iff C outputScript pubKey now).mp hT).2.2.2.2.2.2
    have := (verifySpec_eq_true_iff C pubKey
      ((decodeOutputScript outputScript).take 7)
      ((decodeOutputScript outputScript).getD 7 [])).mpr hsig
    rw [hV] at this
    exact Bool.noConfusion this

/-- Witness for C4 on the concrete valid token. -/
theorem evaluateCommitment_signature_refines_spec_witness :
    evaluateCommitment trivialCollab validTok () 0 =
      verifySpec trivialCollab () ((decodeOutputScript validTok).take 7)
        ((decodeOutputScript validTok).getD 7 []) :=
  evaluateCommitment_signature_refines_spec trivialCollab validTok () 0
    (by decide) (by decide) (by decide) (by decide) (by decide) (by decide)

/-- Claim C5: for every buffer, key, clock and collaborators, the outer
catch converts every thrown failure of the try-block into the verdict
false, and a normal return is passed through; no exception escapes
evaluateCommitment. -/
theorem evaluateCommitment_no_exception {PubKey Sig : Type}
    (C : Collaborators PubKey Sig) (outputScript : List Nat)
    (pubKey : PubKey) (now : Int) :
    (∃ e, evaluateBody C pubKey now (decodeOutputScript outputScript) =
        Except.error e ∧
      evaluateCommitment C outputScript pubKey now = false) ∨
    (∃ b, evaluateBody C pubKey now (decodeOutputScript outputScript) =
        Except.ok b ∧
      evaluateCommitment C outputScript pubKey now = b) := by
  rcases hE : evaluateBody C pubKey now (decodeOutputScript outputScript) with e | b
  · exact Or.inl ⟨e, rfl, by simp [evaluateCommitment, hE]⟩
  · exact Or.inr ⟨b, rfl, by simp [evaluateCommitment, hE]⟩

/-- Claim C6: the expiry comparison is strictly exclusive. A token whose
expiry field parses to exactly the current time evaluates to false, while
the token differing only in an expiry field parsing to the current time
plus one, with all other checks passing and its signature verifying,
evaluates to true. -/
theorem evaluateCommitment_expiry_boundary {PubKey Sig : Type}
    (C : Collaborators PubKey Sig) (pubKey : PubKey) (now : Int)
    (bufNow bufNext : List Nat) (f0 f1 f2 f3 f4 f5 f5x f6 f7 : List Nat)
    (hdec : decodeOutputScript bufNow = [f0, f1, f2, f3, f4, f5, f6, f7])
    (hdecx : decodeOutputScript bufNext = [f0, f1, f2, f3, f4, f5x, f6, f7])
    (h5 : parseIntBytes f5 = some now)
    (h5x : parseIntBytes f5x = some (now + 1))
    (h0 : f0 = uhrpProtocolAddressBytes)
    (h2 : isValidSHA256 (bufToHex f2) = true)
    (h4 : C.isValidURL f4 = true)
    (h6 : ∃ n, parseIntBytes f6 = some n ∧ 0 < n)
    (h7 : ∃ s, C.fromDER f7 = some s ∧
      C.verify pubKey
        (C.sha256 (List.flatten [f0, f1, f2, f3, f4, f5x, f6])) s = true) :
    evaluateCommitment C bufNow pubKey now = false ∧
    evaluateCommitment C bufNext pubKey now = true := by
  constructor
  · by_contra hne
    have hT : evaluateCommitment C bufNow pubKey now = true := by
      revert hne
      cases evaluateCommitment C bufNow pubKey now <;> simp
    have hj := ((evaluateCommitment_eq_true_iff C bufNow pubKey now).mp hT).2.2.2.2.1
    rw [hdec] at hj
    simp [h5, jsLe] at hj
  · rw [evaluateCommitment_eq_true_iff, hdecx]
    rcases h6 with ⟨n, hn, hpos⟩
    rcases h7 with ⟨s, hder, hver⟩
    refine ⟨by simp, by simpa using h0, by simpa using h2, by simpa using h4,
      ?_, ?_, s, by simpa using hder, ?_⟩
    · simp only [List.getD_cons_succ, List.getD_cons_zero, h5x, jsLe,
        decide_eq_false_iff_not]
      omega
    · simp only [List.getD_cons_succ, List.getD_cons_zero, hn, jsLe,
        decide_eq_false_iff_not]
      omega
    · simpa using hver

/-- Token whose expiry field reads "5", evaluated at current time 5. -/
def expiryNowTok : List Nat :=
  encodeFields [uhrpProtocolAddressBytes, [107], List.replicate 32 0,
    [97], [117], [53], [49], [48]]

/-- The same token with expiry field "6", one second later. -/
def expiryNextTok : List Nat :=
  encodeFields [uhrpProtocolAddressBytes, [107], List.replicate 32 0,
    [97], [117], [54], [49], [48]]

/-- Witness for C6 at current time 5 with concrete tokens. -/
theorem evaluateCommitment_expiry_boundary_witness :
    evaluateCommitment trivialCollab expiryNowTok () 5 = false ∧
    evaluateCommitment trivialCollab expiryNextTok () 5 = true :=
  evaluateCommitment_expiry_boundary trivialCollab () 5 expiryNowTok expiryNextTok
    uhrpProtocolAddressBytes [107] (List.replicate 32 0) [97] [117]
    [53] [54] [49] [48]
    (by decide) (by decide) (by decide) (by decide) (by decide) (by decide)
    (by decide) ⟨1, by decide, by decide⟩ ⟨(), by decide, by decide⟩

/-- Claim C7: encoding eight fields, each at most 255 bytes long, with the
single-byte length-prefix scheme and decoding the result yields back
exactly the original eight field contents in order. -/
theorem decode_encode_roundtrip (fields : List (List Nat))
    (h8 : fields.length = 8) (hsz : ∀ f ∈ fields, f.length ≤ 255) :
    decodeOutputScript (encodeFields fields) = fields := by
  have h := decodeOutputScript_encode_append fields []
  simpa [decodeOutputScript_nil] using h

/-- Witness for C7 on the concrete valid token fields. -/
theorem decode_encode_roundtrip_witness :
    decodeOutputScript (encodeFields validTokFields) = validTokFields :=
  decode_encode_roundtrip validTokFields (by decide) (by decide)

/-- Claim C8: a buffer decoding to fewer than eight fields, the empty
buffer included, makes evaluateCommitment return false: the field access
on a missing index throws inside the try-block and the catch converts it
to false. -/
theorem evaluateCommitment_decode_insufficient_false {PubKey Sig : Type}
    (C : Collaborators PubKey Sig) (outputScript : List Nat)
    (pubKey : PubKey) (now : Int)
    (h : (decodeOutputScript outputScript).length < 8) :
    evaluateCommitment C outputScript pubKey now = false := by
  by_contra hne
  have hT : evaluateCommitment C outputScript pubKey now = true := by
    revert hne
    cases evaluateCommitment C outputScript pubKey now <;> simp
  have h8 := ((evaluateCommitment_eq_true_iff C outputScript pubKey now).mp hT).1
  omega

/-- Witness for C8 on the empty buffer. -/
theorem evaluateCommitment_decode_insufficient_false_witness :
    evaluateCommitment trivialCollab [] () 0 = false :=
  evaluateCommitment_decode_insufficient_false trivialCollab [] () 0 (by decide)

/-- Claim C9: whenever field 2 of the decoded token, rendered as hex, does
not match the 64-lowercase-hex pattern, evaluateCommitment returns
false. -/
theorem evaluateCommitment_bad_hash_false {PubKey Sig : Type}
    (C : Collaborators PubKey Sig) (outputScript : List Nat)
    (pubKey : PubKey) (now : Int)
    (h : isValidSHA256 (bufToHex ((decodeOutputScript outputScript).getD 2 [])) = false) :
    evaluateCommitment C outputScript pubKey now = false := by
  by_contra hne
  have hT : evaluateCommitment C outputScript pubKey now = true := by
    revert hne
    cases evaluateCommitment C outputScript pubKey now <;> simp
  have h2 := ((evaluateCommitment_eq_true_iff C outputScript pubKey now).mp hT).2.2.1
  rw [h] at h2
  exact Bool.noConfusion h2

/-- A commitment whose hash field is a single byte: its hex rendering has
two characters, not 64. -/
def badHashTok : List Nat :=
  encodeFields [uhrpProtocolAddressBytes, [107], [0], [97], [117],
    [57], [49], [48]]

/-- Witness for C9 on the concrete short-hash token. -/
theorem evaluateCommitment_bad_hash_false_witness :
    evaluateCommitment trivialCollab badHashTok () 0 = false :=
  evaluateCommitment_bad_hash_false trivialCollab badHashTok () 0 (by decide)

/-- Every check of the validator reads the decoded field list only
through its first eight entries: a truth verdict transfers between
buffers whose decoded prefixes of length eight agree. -/
theorem evaluateCommitment_true_transfer {PubKey Sig : Type}
    (C : Collaborators PubKey Sig) (pubKey : PubKey) (now : Int)
    (buf1 buf2 : List Nat)
    (h : (decodeOutputScript buf1).take 8 = (decodeOutputScript buf2).take 8)
    (hT : evaluateCommitment C buf1 pubKey now = true) :
    evaluateCommitment C buf2 pubKey now = true := by
  rcases (evaluateCommitment_eq_true_iff C buf1 pubKey now).mp hT with
    ⟨k8, k0, k2, k4, k5, k6, ksig⟩
  have hlen : 8 ≤ (decodeOutputScript buf2).length := by
    have hl := congrArg List.length h
    simp only [List.length_take] at hl
    omega
  have hgd : ∀ i, i < 8 →
      (decodeOutputScript buf2).getD i [] = (decodeOutputScript buf1).getD i [] := by
    intro i hi
    rw [List.getD_eq_getElem?_getD, List.getD_eq_getElem?_getD,
      ← @List.getElem?_take_of_lt _ (decodeOutputScript buf1) 8 i hi,
      ← @List.getElem?_take_of_lt _ (decodeOutputScript buf2) 8 i hi, h]
  have htk : (decodeOutputScript buf2).take 7 = (decodeOutputScript buf1).take 7 := by
    have h7 : ∀ l : List (List Nat), l.take 7 = (l.take 8).take 7 := by
      intro l
      rw [List.take_take]
      norm_num
    rw [h7 (decodeOutputScript buf2), h7 (decodeOutputScript buf1), h]
  apply (evaluateCommitment_eq_true_iff C buf2 pubKey now).mpr
  rw [hgd 0 (by omega), hgd 2 (by omega), hgd 4 (by omega), hgd 5 (by omega),
    hgd 6 (by omega), hgd 7 (by omega), htk]
  exact ⟨hlen, k0, k2, k4, k5, k6, ksig⟩

/-- Claim C10: the verdict depends only on the first eight decoded
fields. Two buffers whose decoded field sequences agree up to position
seven receive the same verdict for the same key and clock; fields decoded
after the eighth are ignored. -/
theorem evaluateCommitment_first_eight_only {PubKey Sig : Type}
    (C : Collaborators PubKey Sig) (pubKey : PubKey) (now : Int)
    (buf1 buf2 : List Nat)
    (h : (decodeOutputScript buf1).take 8 = (decodeOutputScript buf2).take 8) :
    evaluateCommitment C buf1 pubKey now = evaluateCommitment C buf2 pubKey now := by
  cases hE1 : evaluateCommitment C buf1 pubKey now with
  | true =>
    exact (evaluateCommitment_true_transfer C pubKey now buf1 buf2 h hE1).symm
  | false =>
    cases hE2 : evaluateCommitment C buf2 pubKey now with
    | false => rfl
    | true =>
      have := evaluateCommitment_true_transfer C pubKey now buf2 buf1 h.symm hE2
      rw [hE1] at this
      exact Bool.noConfusion this

/-- The valid token followed by a ninth trailing field. -/
def extendedTok : List Nat := validTok ++ [2, 5, 5]

/-- Witness for C10: appending a ninth field leaves the verdict
unchanged. -/
theorem evaluateCommitment_first_eight_only_witness :
    evaluateCommitment trivialCollab validTok () 0 =
      evaluateCommitment trivialCollab extendedTok () 0 :=
  evaluateCommitment_first_eight_only trivialCollab () 0 validTok extendedTok
    (by decide)
